import Mathlib

/-
  Verification development for the Tool-Augmented Conversation Orchestrator
  (src/src/analysis/interactive_analyzer.py, class InteractiveAnalysisService).

  Shallow embedding conventions:
  * Python dict/list/str/int/bool/None values exchanged with the json library
    are modelled by the inductive type `Json`; a json.dumps / json.loads
    round trip through the durable store is modelled as the identity on
    `Json` (the Python json codec is an external library, faithful on this
    data model).  `Json.dumps` models json.dumps output for payloads the
    orchestrator synthesizes itself.
  * Wall-clock readings (time.time(), datetime.now().isoformat()) are inputs
    to the embedded functions; timestamp strings are opaque.
  * The thread pool's behaviour on one batch is modelled by an outcome map
    `exec : Nat → ExecOut` (what each submitted call does relative to the
    as_completed deadline) and a completion order `order : List Nat` (the
    order in which as_completed yields the futures that finish in time).
-/

namespace OITracker

/-- JSON values: the data model of the Python objects the service stores and
serializes.  Numbers are modelled as integers (no claim involves floats). -/
inductive Json where
  | null : Json
  | bool (b : Bool) : Json
  | num (n : Int) : Json
  | str (s : String) : Json
  | arr (elems : List Json) : Json
  | obj (fields : List (String × Json)) : Json

/-- Escape one character as Python's json.dumps does (common cases). -/
def jsonEscapeChar (c : Char) : String :=
  if c = '"' then "\\\""
  else if c = '\\' then "\\\\"
  else if c = '\n' then "\\n"
  else if c = '\t' then "\\t"
  else if c = '\r' then "\\r"
  else String.singleton c

/-- Escape a string for JSON output. -/
def jsonEscape (s : String) : String :=
  String.join (s.toList.map jsonEscapeChar)

mutual

/-- json.dumps with Python's default separators. -/
def Json.dumps : Json → String
  | Json.null => "null"
  | Json.bool true => "true"
  | Json.bool false => "false"
  | Json.num n => toString n
  | Json.str s => "\"" ++ jsonEscape s ++ "\""
  | Json.arr xs => "[" ++ Json.dumpsArr xs ++ "]"
  | Json.obj kvs => "\x7b" ++ Json.dumpsObj kvs ++ "\x7d"

/-- Comma-separated serialization of an array's elements. -/
def Json.dumpsArr : List Json → String
  | [] => ""
  | [x] => Json.dumps x
  | x :: y :: xs => Json.dumps x ++ ", " ++ Json.dumpsArr (y :: xs)

/-- Comma-separated serialization of an object's fields. -/
def Json.dumpsObj : List (String × Json) → String
  | [] => ""
  | [(k, v)] => "\"" ++ jsonEscape k ++ "\": " ++ Json.dumps v
  | (k, v) :: kv :: kvs =>
      "\"" ++ jsonEscape k ++ "\": " ++ Json.dumps v ++ ", " ++ Json.dumpsObj (kv :: kvs)

end

/-! ## Tool dispatcher (converse, lines 196–292)

One model turn requests a batch of tool calls; the service submits each to a
ThreadPoolExecutor, walks `as_completed(..., timeout=self.default_timeout)`,
and finally synthesizes timeout results for futures not done at the deadline.
-/

/-- One tool request collected from a `toolUse` content block:
`tool_use.get("name")`, `tool_use.get("input")`, `tool_use.get("toolUseId")`. -/
structure TCall where
  name : String
  params : Json
  toolUseId : String

instance : Inhabited TCall := ⟨⟨"", Json.null, ""⟩⟩

/-- What one submitted call does, relative to the `as_completed` deadline:
it returns a string, returns a non-string value (the caller applies
json.dumps), raises an exception with the given message, or is still
running when the deadline expires. -/
inductive ExecOut where
  | retStr (s : String)
  | retVal (j : Json)
  | raises (msg : String)
  | hangs

/-- Does this outcome leave the future unfinished at the deadline? -/
def ExecOut.isHang : ExecOut → Bool
  | ExecOut.hangs => true
  | _ => false

/-- One `tool_calls_made` entry.  `started_at`/`completed_at` are wall-clock
strings; the model records only whether `completed_at` was written. -/
structure LogEntry where
  name : String
  params : Json
  status : Option String
  error : Option String
  completedAt : Bool

instance : Inhabited LogEntry := ⟨⟨"", Json.null, none, none, false⟩⟩

/-- Entry appended when the tool call is collected (lines 216–220):
name and parameters only; no status, no error, no completion time. -/
def mkLogEntry (c : TCall) : LogEntry :=
  ⟨c.name, c.params, none, none, false⟩

/-- One `toolResult` entry sent back to the model:
`{"toolResult": {"toolUseId": ..., "content": [{"text": ...}]}}`. -/
structure ToolResult where
  toolUseId : String
  content : String
deriving DecidableEq

/-- The update applied to `tool_calls_made` (lines 250–254 on success,
274–279 on error): Python scans the list and mutates the FIRST entry whose
`"name"` equals the resolved call's name, then breaks. -/
def updateFirst (nm : String) (f : LogEntry → LogEntry) : List LogEntry → List LogEntry
  | [] => []
  | e :: es => if e.name = nm then f e :: es else e :: updateFirst nm f es

/-- Field mutation performed on the matched log entry when a future
resolves.  Note the timeout branch (lines 281–292) performs no log update,
so `hangs` leaves the entry unchanged. -/
def applyOutcome : ExecOut → LogEntry → LogEntry
  | ExecOut.retStr _, e => { e with status := some "success", completedAt := true }
  | ExecOut.retVal _, e => { e with status := some "success", completedAt := true }
  | ExecOut.raises m, e => { e with status := some "error", error := some m, completedAt := true }
  | ExecOut.hangs, e => e

/-- Payload synthesized when a tool call raises (line 269). -/
def execFailedPayload (msg : String) : String :=
  Json.dumps (Json.obj [("error", Json.str ("Tool execution failed: " ++ msg))])

/-- Payload synthesized for a call not done at the deadline (line 290). -/
def deadlinePayload : String :=
  Json.dumps (Json.obj [("error", Json.str "Tool execution timed out")])

/-- The `toolResult` entry produced for one call, by outcome
(lines 257–262 on success, 266–271 on exception, 287–292 on timeout). -/
def resolveResult (c : TCall) : ExecOut → ToolResult
  | ExecOut.retStr s => ⟨c.toolUseId, s⟩
  | ExecOut.retVal j => ⟨c.toolUseId, Json.dumps j⟩
  | ExecOut.raises m => ⟨c.toolUseId, execFailedPayload m⟩
  | ExecOut.hangs => ⟨c.toolUseId, deadlinePayload⟩

/-- The `for future in as_completed(...)` loop (lines 238–279): futures are
yielded in completion order `order`; each yielded future updates the first
log entry matching its name and appends one result.  A hanging future is
never yielded, so a hang index contributes nothing here. -/
def processCompleted (reqs : List TCall) (exec : Nat → ExecOut) :
    List Nat → List LogEntry → List LogEntry × List ToolResult
  | [], log => (log, [])
  | i :: rest, log =>
    if (exec i).isHang then processCompleted reqs exec rest log
    else
      let c := reqs.getD i default
      let log1 := updateFirst c.name (applyOutcome (exec i)) log
      let out := processCompleted reqs exec rest log1
      (out.1, resolveResult c (exec i) :: out.2)

/-- Indices of the batch whose futures are still running at the deadline. -/
def hangIdx (reqs : List TCall) (exec : Nat → ExecOut) : List Nat :=
  (List.range reqs.length).filter (fun i => (exec i).isHang)

/-- Indices of the batch whose futures finish before the deadline — the set
`as_completed` yields.  A valid completion order is any permutation of it. -/
def completedIdx (reqs : List TCall) (exec : Nat → ExecOut) : List Nat :=
  (List.range reqs.length).filter (fun i => !(exec i).isHang)

/-- The whole dispatch of one batch (lines 216–292), starting from the
`tool_calls_made` list accumulated so far (`log0`): collection appends one
fresh entry per request in request order; the `as_completed` loop resolves
finishing futures in completion order; the `except TimeoutError` branch then
appends a synthesized timeout result — but no log update — for every future
not done, in request order. -/
def runBatch (reqs : List TCall) (exec : Nat → ExecOut) (order : List Nat)
    (log0 : List LogEntry) : List LogEntry × List ToolResult :=
  let log1 := log0 ++ reqs.map mkLogEntry
  let out := processCompleted reqs exec order log1
  (out.1, out.2 ++ (hangIdx reqs exec).map (fun i => resolveResult (reqs.getD i default) (exec i)))

/-! ## Dispatcher lemmas -/

theorem range_map_getD {β : Type} (l : List β) (d : β) :
    (List.range l.length).map (fun i => l.getD i d) = l := by
  apply List.ext_getElem
  · simp
  · intro n h1 h2
    simp only [List.getElem_map, List.getElem_range]
    exact List.getD_eq_getElem l d h2

theorem getD_map_range {β : Type} (g : Nat → β) (n k : Nat) (d : β) (h : k < n) :
    ((List.range n).map g).getD k d = g k := by
  rw [List.getD_eq_getElem _ _ (by simpa using h)]
  simp

theorem set_map_range {β : Type} (g : Nat → β) (n i : Nat) (v : β) :
    ((List.range n).map g).set i v
      = (List.range n).map (fun k => if i = k then v else g k) := by
  apply List.ext_getElem
  · simp
  · intro m h1 h2
    rw [List.getElem_set]
    by_cases h : i = m <;> simp [h]

theorem applyOutcome_name (o : ExecOut) (e : LogEntry) :
    (applyOutcome o e).name = e.name := by
  cases o <;> rfl

theorem applyOutcome_of_isHang {o : ExecOut} (h : o.isHang = true) (e : LogEntry) :
    applyOutcome o e = e := by
  cases o <;> first | rfl | simp [ExecOut.isHang] at h

theorem updateFirst_eq_set (nm : String) (f : LogEntry → LogEntry) :
    ∀ (l : List LogEntry) (k : Nat), k < l.length →
      (l.map LogEntry.name).Nodup → (l.getD k default).name = nm →
      updateFirst nm f l = l.set k (f (l.getD k default))
  | [], k, hk, _, _ => by simp at hk
  | e :: es, 0, hk, hnd, hnm => by
      rw [List.getD_cons_zero] at hnm ⊢
      simp [updateFirst, hnm]
  | e :: es, k + 1, hk, hnd, hnm => by
      rw [List.getD_cons_succ] at hnm
      have hk' : k < es.length := by simpa using hk
      have hmem : (es.getD k default).name ∈ es.map LogEntry.name := by
        rw [List.getD_eq_getElem es default hk']
        exact List.mem_map_of_mem _ (List.getElem_mem hk')
      have hne : ¬ e.name = nm := by
        rw [List.map_cons, List.nodup_cons] at hnd
        intro hcontra
        rw [← hnm] at hcontra
        exact hnd.1 (hcontra ▸ hmem)
      rw [List.getD_cons_succ]
      simp only [updateFirst, if_neg hne, List.set_cons_succ]
      rw [updateFirst_eq_set nm f es k hk' (by
        rw [List.map_cons, List.nodup_cons] at hnd; exact hnd.2) hnm]

theorem processCompleted_snd (reqs : List TCall) (exec : Nat → ExecOut) :
    ∀ (order : List Nat) (log : List LogEntry),
      (∀ i ∈ order, (exec i).isHang = false) →
      (processCompleted reqs exec order log).2
        = order.map (fun i => resolveResult (reqs.getD i default) (exec i))
  | [], log, _ => rfl
  | i :: rest, log, h => by
      have hi := h i (List.mem_cons_self i rest)
      rw [processCompleted, if_neg (by simp [hi])]
      simp only [List.map_cons]
      rw [← processCompleted_snd reqs exec rest
        (updateFirst (reqs.getD i default).name (applyOutcome (exec i)) log)
        (fun j hj => h j (List.mem_cons_of_mem i hj))]

theorem processCompleted_fst (reqs : List TCall) (exec : Nat → ExecOut) :
    ∀ (order done : List Nat),
      (reqs.map TCall.name).Nodup →
      (∀ i ∈ order, i < reqs.length ∧ (exec i).isHang = false) →
      (order ++ done).Nodup →
      (processCompleted reqs exec order
          ((List.range reqs.length).map (fun k =>
            if k ∈ done then applyOutcome (exec k) (mkLogEntry (reqs.getD k default))
            else mkLogEntry (reqs.getD k default)))).1
        = (List.range reqs.length).map (fun k =>
            if k ∈ order ++ done then applyOutcome (exec k) (mkLogEntry (reqs.getD k default))
            else mkLogEntry (reqs.getD k default))
  | [], done, hnd, hvalid, hnodup => by simp [processCompleted]
  | i :: rest, done, hnd, hvalid, hnodup => by
      obtain ⟨hi, hhang⟩ := hvalid i (List.mem_cons_self i rest)
      have hlen : ((List.range reqs.length).map (fun k =>
          if k ∈ done then applyOutcome (exec k) (mkLogEntry (reqs.getD k default))
          else mkLogEntry (reqs.getD k default))).length = reqs.length := by simp
      have hinotdone : i ∉ done := by
        rw [List.cons_append, List.nodup_cons] at hnodup
        exact fun hc => hnodup.1 (List.mem_append_right rest hc)
      have hgname : ∀ k, ((fun k =>
          if k ∈ done then applyOutcome (exec k) (mkLogEntry (reqs.getD k default))
          else mkLogEntry (reqs.getD k default)) k).name = (reqs.getD k default).name := by
        intro k
        by_cases hk : k ∈ done <;> simp [hk, applyOutcome_name, mkLogEntry]
      have hmapname : (((List.range reqs.length).map (fun k =>
          if k ∈ done then applyOutcome (exec k) (mkLogEntry (reqs.getD k default))
          else mkLogEntry (reqs.getD k default))).map LogEntry.name) = reqs.map TCall.name := by
        rw [List.map_map]
        apply List.ext_getElem
        · simp
        · intro m h1 h2
          have hm : m < reqs.length := by simpa using h2
          simp only [List.getElem_map, List.getElem_range, Function.comp]
          rw [hgname m, List.getD_eq_getElem reqs default hm]
      have hgetD : ((List.range reqs.length).map (fun k =>
          if k ∈ done then applyOutcome (exec k) (mkLogEntry (reqs.getD k default))
          else mkLogEntry (reqs.getD k default))).getD i default
          = mkLogEntry (reqs.getD i default) := by
        rw [getD_map_range _ _ _ _ hi]
        simp [hinotdone]
      rw [processCompleted, if_neg (by simp [hhang])]
      simp only []
      rw [updateFirst_eq_set (reqs.getD i default).name (applyOutcome (exec i)) _ i
        (by rw [hlen]; exact hi) (by rw [hmapname]; exact hnd)
        (by rw [hgetD]; rfl)]
      rw [hgetD, set_map_range]
      have hfun : (List.range reqs.length).map (fun k =>
          if i = k then applyOutcome (exec i) (mkLogEntry (reqs.getD i default))
          else if k ∈ done then applyOutcome (exec k) (mkLogEntry (reqs.getD k default))
          else mkLogEntry (reqs.getD k default))
          = (List.range reqs.length).map (fun k =>
            if k ∈ (i :: done) then applyOutcome (exec k) (mkLogEntry (reqs.getD k default))
            else mkLogEntry (reqs.getD k default)) := by
        apply List.map_congr_left
        intro k _
        by_cases hik : i = k
        · subst hik; simp
        · simp only [if_neg hik, List.mem_cons]
          by_cases hkd : k ∈ done <;> simp [hkd, Ne.symm hik]
      rw [hfun]
      rw [processCompleted_fst reqs exec rest (i :: done) hnd
        (fun j hj => hvalid j (List.mem_cons_of_mem i hj))
        (by
          have hperm : (rest ++ i :: done).Perm (i :: (rest ++ done)) := List.perm_middle
          apply hperm.symm.nodup
          rw [List.cons_append] at hnodup
          exact hnodup)]
      apply List.map_congr_left
      intro k _
      have hmem : (k ∈ rest ++ i :: done) ↔ (k ∈ (i :: rest) ++ done) := by
        simp only [List.mem_append, List.mem_cons]
        tauto
      by_cases hk : k ∈ rest ++ i :: done
      · rw [if_pos hk, if_pos (hmem.mp hk)]
      · rw [if_neg hk, if_neg (fun hc => hk (hmem.mpr hc))]

theorem mem_order_valid {reqs : List TCall} {exec : Nat → ExecOut} {order : List Nat}
    (horder : order.Perm (completedIdx reqs exec)) :
    ∀ i ∈ order, i < reqs.length ∧ (exec i).isHang = false := by
  intro i hi
  rw [horder.mem_iff, completedIdx, List.mem_filter, List.mem_range] at hi
  exact ⟨hi.1, by simpa using hi.2⟩

/-- Under a valid completion order, the final tool log of one batch assigns
to every request its own outcome applied to its own fresh entry (hanging
calls keep the fresh entry untouched). -/
theorem runBatch_fst (reqs : List TCall) (exec : Nat → ExecOut) (order : List Nat)
    (hnd : (reqs.map TCall.name).Nodup)
    (horder : order.Perm (completedIdx reqs exec)) :
    (runBatch reqs exec order []).1
      = (List.range reqs.length).map
          (fun k => applyOutcome (exec k) (mkLogEntry (reqs.getD k default))) := by
  have hnodup : order.Nodup :=
    horder.symm.nodup (List.Nodup.filter _ (List.nodup_range _))
  have hinit : ([] : List LogEntry) ++ reqs.map mkLogEntry
      = (List.range reqs.length).map (fun k =>
          if k ∈ ([] : List Nat) then applyOutcome (exec k) (mkLogEntry (reqs.getD k default))
          else mkLogEntry (reqs.getD k default)) := by
    simp only [List.nil_append, List.not_mem_nil, if_false]
    apply List.ext_getElem
    · simp
    · intro m h1 h2
      have hm : m < reqs.length := by simpa using h1
      simp only [List.getElem_map, List.getElem_range]
      rw [List.getD_eq_getElem reqs default hm]
  rw [runBatch]
  simp only []
  rw [hinit, processCompleted_fst reqs exec order [] hnd (mem_order_valid horder)
    (by simpa using hnodup)]
  apply List.map_congr_left
  intro k hk
  by_cases hmem : k ∈ order ++ ([] : List Nat)
  · rw [if_pos hmem]
  · rw [if_neg hmem]
    have hhang : (exec k).isHang = true := by
      rw [List.append_nil] at hmem
      rw [horder.mem_iff, completedIdx, List.mem_filter] at hmem
      by_contra hc
      exact hmem ⟨hk, by simpa using hc⟩
    rw [applyOutcome_of_isHang hhang]

/-- The batch of tool results is exactly one entry per yielded future, in
completion order, followed by one synthesized timeout entry per hanging
future, in request order. -/
theorem runBatch_snd (reqs : List TCall) (exec : Nat → ExecOut) (order : List Nat)
    (log0 : List LogEntry) (horder : order.Perm (completedIdx reqs exec)) :
    (runBatch reqs exec order log0).2
      = (order ++ hangIdx reqs exec).map
          (fun i => resolveResult (reqs.getD i default) (exec i)) := by
  rw [runBatch]
  simp only []
  rw [processCompleted_snd reqs exec order _ (fun i hi => (mem_order_valid horder i hi).2),
    List.map_append]

theorem order_append_hang_perm (reqs : List TCall) (exec : Nat → ExecOut)
    (order : List Nat) (horder : order.Perm (completedIdx reqs exec)) :
    (order ++ hangIdx reqs exec).Perm (List.range reqs.length) := by
  have h1 := List.filter_append_perm (fun i => !(exec i).isHang) (List.range reqs.length)
  have h2 : (completedIdx reqs exec ++ hangIdx reqs exec).Perm (List.range reqs.length) := by
    rw [completedIdx, hangIdx]
    simpa [Bool.not_not] using h1
  exact (horder.append_right _).trans h2

/-- Every request index contributes its entry (normal or timeout) to the
result batch. -/
theorem mem_runBatch_snd (reqs : List TCall) (exec : Nat → ExecOut) (order : List Nat)
    (log0 : List LogEntry) (i : Nat) (horder : order.Perm (completedIdx reqs exec))
    (hi : i < reqs.length) :
    resolveResult (reqs.getD i default) (exec i) ∈ (runBatch reqs exec order log0).2 := by
  rw [runBatch_snd reqs exec order log0 horder]
  apply List.mem_map_of_mem
  rw [List.mem_append]
  by_cases h : (exec i).isHang
  · right
    rw [hangIdx, List.mem_filter, List.mem_range]
    exact ⟨hi, h⟩
  · left
    rw [horder.mem_iff, completedIdx, List.mem_filter, List.mem_range]
    exact ⟨hi, by simpa using h⟩

theorem runBatch_snd_ne_nil (reqs : List TCall) (exec : Nat → ExecOut) (order : List Nat)
    (log0 : List LogEntry) (horder : order.Perm (completedIdx reqs exec))
    (hne : reqs ≠ []) : (runBatch reqs exec order log0).2 ≠ [] := by
  rw [runBatch_snd reqs exec order log0 horder]
  intro hcontra
  rw [List.map_eq_nil_iff] at hcontra
  have hperm := order_append_hang_perm reqs exec order horder
  rw [hcontra] at hperm
  have hlen : reqs.length = 0 := by simpa using hperm.length_eq.symm
  exact hne (List.length_eq_zero.mp hlen)

/-! ## Claim C2: correlation completeness -/

/-- C2: for every batch of N tool requests with pairwise-distinct toolUseIds
produced by one model turn, and every valid completion order, the batch of
tool results sent back to the model has toolUseIds that are a permutation of
the input ids — each distinct, drawn from the input set, none orphaned or
duplicated — and exactly N entries, regardless of whether the individual
calls succeed, raise, or time out. -/
theorem run_batch_correlation_completeness (reqs : List TCall) (exec : Nat → ExecOut)
    (order : List Nat) (log0 : List LogEntry)
    (hids : (reqs.map TCall.toolUseId).Nodup)
    (horder : order.Perm (completedIdx reqs exec)) :
    ((runBatch reqs exec order log0).2.map ToolResult.toolUseId).Perm
      (reqs.map TCall.toolUseId)
    ∧ ((runBatch reqs exec order log0).2.map ToolResult.toolUseId).Nodup
    ∧ (runBatch reqs exec order log0).2.length = reqs.length := by
  have hperm : ((runBatch reqs exec order log0).2.map ToolResult.toolUseId).Perm
      (reqs.map TCall.toolUseId) := by
    rw [runBatch_snd reqs exec order log0 horder, List.map_map]
    have h2 : ((order ++ hangIdx reqs exec).map
        (ToolResult.toolUseId ∘ fun i => resolveResult (reqs.getD i default) (exec i)))
        = (order ++ hangIdx reqs exec).map (fun i => (reqs.getD i default).toolUseId) := by
      apply List.map_congr_left
      intro i _
      simp only [Function.comp_apply]
      cases exec i <;> rfl
    rw [h2]
    have h3 := (order_append_hang_perm reqs exec order horder).map
      (fun i => (reqs.getD i default).toolUseId)
    have h4 : (List.range reqs.length).map (fun i => (reqs.getD i default).toolUseId)
        = reqs.map TCall.toolUseId := by
      apply List.ext_getElem
      · simp
      · intro m h1 hm2
        have hm : m < reqs.length := by simpa using h1
        simp only [List.getElem_map, List.getElem_range]
        rw [List.getD_eq_getElem reqs default hm]
    rw [h4] at h3
    exact h3
  refine ⟨hperm, hperm.symm.nodup hids, ?_⟩
  have := hperm.length_eq
  simpa using this

def c2Reqs : List TCall :=
  [⟨"get_live_oi_data", Json.null, "w1"⟩, ⟨"get_market_data", Json.null, "w2"⟩]

def c2Exec : Nat → ExecOut :=
  fun i => if i = 0 then ExecOut.raises "x" else ExecOut.hangs

/-- Witness for C2: a concrete two-call batch, one raising, one timing out,
yielded in the realizable completion order. -/
theorem run_batch_correlation_completeness_witness :
    (c2Reqs.map TCall.toolUseId).Nodup
    ∧ ([0] : List Nat).Perm (completedIdx c2Reqs c2Exec)
    ∧ ((runBatch c2Reqs c2Exec [0] []).2.map ToolResult.toolUseId).Perm
        (c2Reqs.map TCall.toolUseId) :=
  ⟨by decide, by decide,
    (run_batch_correlation_completeness c2Reqs c2Exec [0] [] (by decide) (by decide)).1⟩

/-! ## Claim C3: timeout handling -/

def c3Reqs : List TCall :=
  [⟨"get_live_oi_data", Json.null, "t1"⟩, ⟨"get_market_data", Json.null, "t2"⟩]

def c3Exec : Nat → ExecOut :=
  fun i => if i = 0 then ExecOut.hangs else ExecOut.retStr "ok"

/-- C3 counterexample: in a batch where call 0 exceeds the deadline and call
1 finishes, the timed-out call's recorded tool-log entry does NOT get
status = timeout — no status, error, or completion time is ever written to
it — even though the synthesized timeout payload is sent to the model and
the sibling keeps status = success. -/
theorem timeout_status_unrecorded_cex :
    ((runBatch c3Reqs c3Exec [1] []).1.getD 0 default).status = none
    ∧ ¬ ((runBatch c3Reqs c3Exec [1] []).1.getD 0 default).status = some "timeout"
    ∧ ToolResult.mk "t1" deadlinePayload ∈ (runBatch c3Reqs c3Exec [1] []).2
    ∧ ((runBatch c3Reqs c3Exec [1] []).1.getD 1 default).status = some "success" :=
  ⟨rfl, by decide, by decide, rfl⟩

/-- C3 (amended): in a batch whose tool names are pairwise distinct, a call
still running at the dispatch deadline yields a synthesized timeout error
payload in the results sent to the model, and sibling calls finishing
within budget retain status = success; however the timed-out call's own
tool-log entry is left unresolved — no status and no completion time are
recorded for it (in particular its status is not "timeout").  The deadline
is the batch-level default_timeout shared by all sibling calls, not an
independent per-call timer.  (With duplicate names the name-matching status
bookkeeping can hand a finishing sibling's "success" to the hung call's
record instead, as with C5/C8.) -/
theorem timeout_containment_amended (reqs : List TCall) (exec : Nat → ExecOut)
    (order : List Nat) (i : Nat)
    (hnd : (reqs.map TCall.name).Nodup)
    (horder : order.Perm (completedIdx reqs exec))
    (hi : i < reqs.length) (hhang : exec i = ExecOut.hangs) :
    ToolResult.mk (reqs.getD i default).toolUseId deadlinePayload
      ∈ (runBatch reqs exec order []).2
    ∧ ((runBatch reqs exec order []).1.getD i default).status = none
    ∧ ((runBatch reqs exec order []).1.getD i default).completedAt = false
    ∧ ∀ j s, j < reqs.length → exec j = ExecOut.retStr s →
        ((runBatch reqs exec order []).1.getD j default).status = some "success" := by
  have hlog := runBatch_fst reqs exec order hnd horder
  refine ⟨?_, ?_, ?_, ?_⟩
  · have hm := mem_runBatch_snd reqs exec order [] i horder hi
    rw [hhang] at hm
    exact hm
  · rw [hlog, getD_map_range _ _ _ _ hi, hhang]
    rfl
  · rw [hlog, getD_map_range _ _ _ _ hi, hhang]
    rfl
  · intro j s hj hjs
    rw [hlog, getD_map_range _ _ _ _ hj, hjs]
    rfl

/-- Witness for the amended C3 at the concrete batch of the counterexample. -/
theorem timeout_containment_amended_witness :
    (c3Reqs.map TCall.name).Nodup
    ∧ ([1] : List Nat).Perm (completedIdx c3Reqs c3Exec)
    ∧ c3Exec 0 = ExecOut.hangs
    ∧ (ToolResult.mk (c3Reqs.getD 0 default).toolUseId deadlinePayload
        ∈ (runBatch c3Reqs c3Exec [1] []).2
      ∧ ((runBatch c3Reqs c3Exec [1] []).1.getD 0 default).status = none
      ∧ ((runBatch c3Reqs c3Exec [1] []).1.getD 0 default).completedAt = false
      ∧ ∀ j s, j < c3Reqs.length → c3Exec j = ExecOut.retStr s →
          ((runBatch c3Reqs c3Exec [1] []).1.getD j default).status = some "success") :=
  ⟨by decide, by decide, rfl,
    timeout_containment_amended c3Reqs c3Exec [1] 0 (by decide) (by decide)
      (by decide) rfl⟩

/-! ## Claim C5: error isolation -/

def c5Reqs : List TCall :=
  [⟨"get_market_data", Json.null, "a"⟩, ⟨"get_market_data", Json.null, "b"⟩]

def c5Exec : Nat → ExecOut :=
  fun i => if i = 0 then ExecOut.raises "boom" else ExecOut.retStr "ok"

/-- C5 counterexample: when two calls in one batch share a tool name (call A
raises "boom", call B succeeds, A resolving first — a realizable completion
order), the status bookkeeping attaches by NAME, so B's success overwrites
A's record (final status "success" with a stale error field) and B's own
record never receives a status: the claim's A.status = error and
B.status = success both fail. -/
theorem error_isolation_shared_name_cex :
    ((runBatch c5Reqs c5Exec [0, 1] []).1.getD 0 default).status = some "success"
    ∧ ((runBatch c5Reqs c5Exec [0, 1] []).1.getD 0 default).error = some "boom"
    ∧ ((runBatch c5Reqs c5Exec [0, 1] []).1.getD 1 default).status = none :=
  ⟨rfl, rfl, rfl⟩

/-- C5 (amended): in a batch whose tool names are pairwise distinct, a call
that raises resolves with status = error, its exception message captured,
and the synthesized failure payload sent for its toolUseId, while a sibling
that returns normally resolves with status = success, no error, and its own
result payload — one call's failure never aborts or alters its siblings. -/
theorem error_isolation_amended (reqs : List TCall) (exec : Nat → ExecOut)
    (order : List Nat) (i j : Nat) (m s : String)
    (hnd : (reqs.map TCall.name).Nodup)
    (horder : order.Perm (completedIdx reqs exec))
    (hi : i < reqs.length) (hj : j < reqs.length)
    (hA : exec i = ExecOut.raises m) (hB : exec j = ExecOut.retStr s) :
    ((runBatch reqs exec order []).1.getD i default).status = some "error"
    ∧ ((runBatch reqs exec order []).1.getD i default).error = some m
    ∧ ToolResult.mk (reqs.getD i default).toolUseId (execFailedPayload m)
        ∈ (runBatch reqs exec order []).2
    ∧ ((runBatch reqs exec order []).1.getD j default).status = some "success"
    ∧ ((runBatch reqs exec order []).1.getD j default).error = none
    ∧ ToolResult.mk (reqs.getD j default).toolUseId s ∈ (runBatch reqs exec order []).2 := by
  have hlog := runBatch_fst reqs exec order hnd horder
  refine ⟨?_, ?_, ?_, ?_, ?_, ?_⟩
  · rw [hlog, getD_map_range _ _ _ _ hi, hA]
    rfl
  · rw [hlog, getD_map_range _ _ _ _ hi, hA]
    rfl
  · have hm := mem_runBatch_snd reqs exec order [] i horder hi
    rw [hA] at hm
    exact hm
  · rw [hlog, getD_map_range _ _ _ _ hj, hB]
    rfl
  · rw [hlog, getD_map_range _ _ _ _ hj, hB]
    rfl
  · have hm := mem_runBatch_snd reqs exec order [] j horder hj
    rw [hB] at hm
    exact hm

def c5DReqs : List TCall :=
  [⟨"get_live_oi_data", Json.null, "a"⟩, ⟨"get_market_data", Json.null, "b"⟩]

/-- Witness for the amended C5: distinct-name batch, call 0 raises, call 1
succeeds. -/
theorem error_isolation_amended_witness :
    (c5DReqs.map TCall.name).Nodup
    ∧ ([0, 1] : List Nat).Perm (completedIdx c5DReqs c5Exec)
    ∧ (((runBatch c5DReqs c5Exec [0, 1] []).1.getD 0 default).status = some "error"
      ∧ ((runBatch c5DReqs c5Exec [0, 1] []).1.getD 0 default).error = some "boom"
      ∧ ToolResult.mk (c5DReqs.getD 0 default).toolUseId (execFailedPayload "boom")
          ∈ (runBatch c5DReqs c5Exec [0, 1] []).2
      ∧ ((runBatch c5DReqs c5Exec [0, 1] []).1.getD 1 default).status = some "success"
      ∧ ((runBatch c5DReqs c5Exec [0, 1] []).1.getD 1 default).error = none
      ∧ ToolResult.mk (c5DReqs.getD 1 default).toolUseId "ok"
          ∈ (runBatch c5DReqs c5Exec [0, 1] []).2) :=
  ⟨by decide, by decide,
    error_isolation_amended c5DReqs c5Exec [0, 1] 0 1 "boom" "ok" (by decide) (by decide)
      (by decide) (by decide) rfl rfl⟩

/-! ## Claim C8: tool-log mutation discipline -/

def c8Reqs : List TCall :=
  [⟨"get_market_data", Json.null, "u1"⟩, ⟨"get_market_data", Json.null, "u2"⟩]

def c8Exec : Nat → ExecOut := fun _ => ExecOut.retStr "r"

/-- C8 counterexample: with the same tool name appearing twice in one batch
(both calls succeeding, resolved in request order), both resolutions are
attached to the FIRST record with that name: the second request's record is
never mutated — its call resolved, yet it has no status and no completion
time. -/
theorem tool_log_single_mutation_cex :
    ((runBatch c8Reqs c8Exec [0, 1] []).1.getD 1 default).status = none
    ∧ ((runBatch c8Reqs c8Exec [0, 1] []).1.getD 1 default).completedAt = false
    ∧ ((runBatch c8Reqs c8Exec [0, 1] []).1.getD 0 default).status = some "success" :=
  ⟨rfl, rfl, rfl⟩

/-- C8 (amended): when the tool names in a batch are pairwise distinct, each
tool-log record is resolved exactly once, with exactly its own call's
outcome (status, completion mark, error captured at most once), and a
resolution is attached to the record of the request that produced it; each
non-hanging call is yielded exactly once by the completion loop.  (With
duplicate names the bookkeeping attaches to the first record with that
name, as the counterexample shows.) -/
theorem tool_log_mutation_amended (reqs : List TCall) (exec : Nat → ExecOut)
    (order : List Nat)
    (hnd : (reqs.map TCall.name).Nodup)
    (horder : order.Perm (completedIdx reqs exec)) :
    (runBatch reqs exec order []).1
      = (List.range reqs.length).map
          (fun k => applyOutcome (exec k) (mkLogEntry (reqs.getD k default)))
    ∧ ∀ k, k < reqs.length → (exec k).isHang = false → order.count k = 1 := by
  refine ⟨runBatch_fst reqs exec order hnd horder, ?_⟩
  intro k hk hh
  rw [horder.count_eq]
  apply List.count_eq_one_of_mem (List.Nodup.filter _ (List.nodup_range _))
  simp only [completedIdx, List.mem_filter, List.mem_range]
  exact ⟨hk, by simpa using hh⟩

def c8DReqs : List TCall :=
  [⟨"get_live_oi_data", Json.null, "u1"⟩, ⟨"get_market_data", Json.null, "u2"⟩]

/-- Witness for the amended C8: distinct-name batch, both calls succeed. -/
theorem tool_log_mutation_amended_witness :
    (c8DReqs.map TCall.name).Nodup
    ∧ ([1, 0] : List Nat).Perm (completedIdx c8DReqs c8Exec)
    ∧ ((runBatch c8DReqs c8Exec [1, 0] []).1
        = (List.range c8DReqs.length).map
            (fun k => applyOutcome (c8Exec k) (mkLogEntry (c8DReqs.getD k default)))
      ∧ ∀ k, k < c8DReqs.length → (c8Exec k).isHang = false → ([1, 0] : List Nat).count k = 1) :=
  ⟨by decide, by decide,
    tool_log_mutation_amended c8DReqs c8Exec [1, 0] (by decide) (by decide)⟩

/-! ## Claim C10: unknown tool names -/

/-- The payload execute_tool returns for a tool name it does not know
(lines 341–344): an ordinary JSON error string, not an exception. -/
def unknownToolPayload (toolName : String) : String :=
  Json.dumps (Json.obj [("error", Json.str ("Unknown tool: " ++ toolName))])

/-- What one underlying tool coroutine does when awaited: returns a value
or raises. -/
inductive ToolRunOut where
  | val (j : Json)
  | raises (msg : String)

/-- Model of execute_tool (lines 331–360).  The two known tools' underlying
calls (subprocess / network I/O) are an oracle.  The wall-clock metadata
execute_tool splices into dict results (execution_time, tool_name) and into
the exception payload is outside the model, so a dict result is dumped
as-is.  Every branch returns a string: execute_tool never raises. -/
def executeTool (oracle : String → Json → ToolRunOut) (toolName : String)
    (parameters : Json) : String :=
  if toolName = "get_live_oi_data" ∨ toolName = "get_market_data" then
    match oracle toolName parameters with
    | ToolRunOut.val j => Json.dumps j
    | ToolRunOut.raises m =>
        Json.dumps (Json.obj [("error", Json.str ("Tool execution failed: " ++ m))])
  else
    unknownToolPayload toolName

/-- A batch whose callback is a string-returning function and whose every
invocation runs to completion before the deadline: each future resolves
with the callback's return value. -/
def execOfCallback (reqs : List TCall) (cb : String → Json → String) : Nat → ExecOut :=
  fun i => ExecOut.retStr (cb (reqs.getD i default).name (reqs.getD i default).params)

/-- C10 (amended): a tool request whose name is not one of the known tools
makes execute_tool return the JSON error payload as an ordinary result — it
does not raise — so its future completes normally and the error payload is
what is sent back to the model for its toolUseId; when the batch's tool
names are pairwise distinct, the corresponding tool-log entry is recorded
with status = success (not error).  (With duplicate names the status
bookkeeping attaches to the first entry with that name, so a later
same-name request's entry is never recorded, as the counterexample
shows.) -/
theorem unknown_tool_resolves_success (oracle : String → Json → ToolRunOut)
    (reqs : List TCall) (order : List Nat) (i : Nat)
    (hnd : (reqs.map TCall.name).Nodup)
    (hi : i < reqs.length)
    (hu : ¬ ((reqs.getD i default).name = "get_live_oi_data"
        ∨ (reqs.getD i default).name = "get_market_data"))
    (horder : order.Perm
      (completedIdx reqs (execOfCallback reqs (executeTool oracle)))) :
    executeTool oracle (reqs.getD i default).name (reqs.getD i default).params
      = unknownToolPayload (reqs.getD i default).name
    ∧ ((runBatch reqs (execOfCallback reqs (executeTool oracle)) order []).1.getD
        i default).status = some "success"
    ∧ ToolResult.mk (reqs.getD i default).toolUseId
        (unknownToolPayload (reqs.getD i default).name)
      ∈ (runBatch reqs (execOfCallback reqs (executeTool oracle)) order []).2 := by
  have h1 : executeTool oracle (reqs.getD i default).name (reqs.getD i default).params
      = unknownToolPayload (reqs.getD i default).name := by
    rw [executeTool, if_neg hu]
  refine ⟨h1, ?_, ?_⟩
  · rw [runBatch_fst _ _ _ hnd horder, getD_map_range _ _ _ _ hi]
    rfl
  · have hm := mem_runBatch_snd reqs (execOfCallback reqs (executeTool oracle))
      order [] i horder hi
    have h2 : resolveResult (reqs.getD i default)
        (execOfCallback reqs (executeTool oracle) i)
        = ToolResult.mk (reqs.getD i default).toolUseId
            (unknownToolPayload (reqs.getD i default).name) := by
      show ToolResult.mk (reqs.getD i default).toolUseId
          (executeTool oracle (reqs.getD i default).name (reqs.getD i default).params)
        = ToolResult.mk (reqs.getD i default).toolUseId
            (unknownToolPayload (reqs.getD i default).name)
      rw [h1]
    rw [h2] at hm
    exact hm

def c10Reqs : List TCall := [⟨"frobnicate", Json.null, "z1"⟩]

def c10Oracle : String → Json → ToolRunOut := fun _ _ => ToolRunOut.val Json.null

def c10DupReqs : List TCall :=
  [⟨"frobnicate", Json.null, "z1"⟩, ⟨"frobnicate", Json.null, "z2"⟩]

/-- C10 counterexample: with the unknown tool name "frobnicate" requested
TWICE in one batch (both futures completing normally with the JSON error
payload, resolved in request order), the second request's tool-log entry is
never recorded at all — no status and no completion time — because both
resolutions attach to the first entry with that name; so "the corresponding
tool-log entry is recorded with status = success" fails for the second
request even though execute_tool returned its payload without raising. -/
theorem unknown_tool_log_unrecorded_cex :
    executeTool c10Oracle "frobnicate" Json.null = unknownToolPayload "frobnicate"
    ∧ ((runBatch c10DupReqs (execOfCallback c10DupReqs (executeTool c10Oracle))
        [0, 1] []).1.getD 1 default).status = none
    ∧ ((runBatch c10DupReqs (execOfCallback c10DupReqs (executeTool c10Oracle))
        [0, 1] []).1.getD 1 default).completedAt = false
    ∧ ToolResult.mk "z2" (unknownToolPayload "frobnicate")
      ∈ (runBatch c10DupReqs (execOfCallback c10DupReqs (executeTool c10Oracle))
          [0, 1] []).2 := by
  have hmem : ToolResult.mk "z2" (unknownToolPayload "frobnicate")
      ∈ (runBatch c10DupReqs (execOfCallback c10DupReqs (executeTool c10Oracle))
          [0, 1] []).2 := by decide
  exact ⟨rfl, rfl, rfl, hmem⟩

/-- Witness for C10: a one-call batch requesting the unknown tool
"frobnicate". -/
theorem unknown_tool_resolves_success_witness :
    (c10Reqs.map TCall.name).Nodup
    ∧ (¬ ((c10Reqs.getD 0 default).name = "get_live_oi_data"
        ∨ (c10Reqs.getD 0 default).name = "get_market_data"))
    ∧ (executeTool c10Oracle (c10Reqs.getD 0 default).name (c10Reqs.getD 0 default).params
        = unknownToolPayload (c10Reqs.getD 0 default).name
      ∧ ((runBatch c10Reqs (execOfCallback c10Reqs (executeTool c10Oracle)) [0] []).1.getD
          0 default).status = some "success"
      ∧ ToolResult.mk (c10Reqs.getD 0 default).toolUseId
          (unknownToolPayload (c10Reqs.getD 0 default).name)
        ∈ (runBatch c10Reqs (execOfCallback c10Reqs (executeTool c10Oracle)) [0] []).2) :=
  ⟨by decide, by decide,
    unknown_tool_resolves_success c10Oracle c10Reqs [0] 0 (by decide) (by decide)
      (by decide) (by decide)⟩

/-! ## Conversation loop (converse, lines 133–329)

The model is scripted: each bedrock_client.converse call either returns a
`ModelResponse` or raises.  converse itself wraps everything in try/except
(lines 155, 327–329), so a raising model call makes converse RETURN the
apologetic error text together with the tool calls made so far — it never
re-raises to its caller.
-/

/-- One block of a model message's content list. -/
inductive ContentBlock where
  | text (s : String)
  | toolUse (c : TCall)

/-- One model response: its stopReason and its output message content. -/
structure ModelResponse where
  stopReason : String
  content : List ContentBlock

/-- Tool requests collected from a model message (lines 197–223), in content
order.  The fallback for a JSON-string `input` (lines 206–211: parse, or
degrade to an empty dict) is not modelled — `input` arrives structured. -/
def collectToolCalls (content : List ContentBlock) : List TCall :=
  content.filterMap (fun b =>
    match b with
    | ContentBlock.toolUse c => some c
    | ContentBlock.text _ => none)

/-- Final response text extraction (lines 315–322): the concatenation of the
text blocks of the last message. -/
def extractText (content : List ContentBlock) : String :=
  content.foldl (fun acc b =>
    match b with
    | ContentBlock.text s => acc ++ s
    | ContentBlock.toolUse _ => acc) ""

/-- The text converse returns when a bedrock call raises (line 329). -/
def converseErrText (msg : String) : String :=
  "I encountered an error processing your request: " ++ msg

/-- The scripted Model Endpoint Client: each element is the behaviour of one
bedrock_client.converse call — a response, or a raised exception message. -/
abbrev ModelScript := List (Except String ModelResponse)

/-- The `while stopReason == "tool_use"` loop (lines 191–313) followed by
text extraction, on: the current response, the remaining script, the turn
counter selecting each turn's batch oracles, the accumulated
tool_calls_made, and the count of tool-dispatch (RUN_TOOLS) cycles so far.
Result: (final text, tool log, dispatch cycles).  none only when the script
is exhausted while the loop needs another model call (a model artifact of
scripting the client). -/
def converseLoop (execs : Nat → Nat → ExecOut) (orders : Nat → List Nat)
    (cur : ModelResponse) (script : ModelScript) (t : Nat) (log : List LogEntry)
    (cycles : Nat) : Option (String × List LogEntry × Nat) :=
  if cur.stopReason = "tool_use" then
      if (collectToolCalls cur.content).isEmpty then
        some (extractText cur.content, log, cycles)
      else
        if (runBatch (collectToolCalls cur.content) (execs t) (orders t) log).2.isEmpty then
          some (extractText cur.content,
            (runBatch (collectToolCalls cur.content) (execs t) (orders t) log).1,
            cycles + 1)
        else
          match script with
          | [] => none
          | Except.error msg :: _ =>
              some (converseErrText msg,
                (runBatch (collectToolCalls cur.content) (execs t) (orders t) log).1,
                cycles + 1)
          | Except.ok next :: rest =>
              converseLoop execs orders next rest (t + 1)
                (runBatch (collectToolCalls cur.content) (execs t) (orders t) log).1
                (cycles + 1)
    else
      some (extractText cur.content, log, cycles)

/-- converse (lines 133–329): the first script element answers the initial
bedrock call (line 179); if it raises, the except branch returns the error
text with the (empty) tool log.  tool_calls_made starts empty. -/
def converse (script : ModelScript) (execs : Nat → Nat → ExecOut)
    (orders : Nat → List Nat) : Option (String × List LogEntry × Nat) :=
  match script with
  | [] => none
  | Except.error msg :: _ => some (converseErrText msg, [], 0)
  | Except.ok first :: rest => converseLoop execs orders first rest 0 [] 0

/-- The loop body when the model requested tools, the batch ran and produced
results, and the scripted follow-up model call answers: one full
ASK_MODEL → RUN_TOOLS cycle. -/
theorem converseLoop_step (execs : Nat → Nat → ExecOut) (orders : Nat → List Nat)
    (cur : ModelResponse) (next : ModelResponse) (rest : ModelScript)
    (t : Nat) (log : List LogEntry) (cycles : Nat)
    (hstop : cur.stopReason = "tool_use")
    (hcalls : collectToolCalls cur.content ≠ [])
    (hres : (runBatch (collectToolCalls cur.content) (execs t) (orders t) log).2 ≠ []) :
    converseLoop execs orders cur (Except.ok next :: rest) t log cycles
      = converseLoop execs orders next rest (t + 1)
          (runBatch (collectToolCalls cur.content) (execs t) (orders t) log).1
          (cycles + 1) := by
  rw [converseLoop.eq_def]
  rw [if_pos hstop, if_neg (by simpa [List.isEmpty_iff] using hcalls),
    if_neg (by simpa [List.isEmpty_iff] using hres)]

/-- The loop terminates, returning the current response's text, exactly when
the response carries no tool requests: either its stopReason is not
"tool_use", or it contains no toolUse block. -/
theorem converseLoop_done (execs : Nat → Nat → ExecOut) (orders : Nat → List Nat)
    (cur : ModelResponse) (script : ModelScript) (t : Nat) (log : List LogEntry)
    (cycles : Nat)
    (h : ¬ cur.stopReason = "tool_use" ∨ collectToolCalls cur.content = []) :
    converseLoop execs orders cur script t log cycles
      = some (extractText cur.content, log, cycles) := by
  rw [converseLoop.eq_def]
  rcases h with h | h
  · rw [if_neg h]
  · by_cases hstop : cur.stopReason = "tool_use"
    · rw [if_pos hstop, if_pos (by simpa [List.isEmpty_iff] using h)]
    · rw [if_neg hstop]

/-! ## Claim C4: scripted loop termination -/

/-- C4: with a scripted Model Endpoint Client that returns tool requests on
its first two responses and plain text on its third, one converse call
performs exactly two tool-dispatch (RUN_TOOLS) cycles and returns the third
response's text; the loop re-invoked the model after each batch and stopped
exactly when the response carried no tool requests. -/
theorem converse_scripted_two_cycles (r1 r2 r3 : ModelResponse)
    (execs : Nat → Nat → ExecOut) (orders : Nat → List Nat)
    (h1 : r1.stopReason = "tool_use") (h1c : collectToolCalls r1.content ≠ [])
    (h2 : r2.stopReason = "tool_use") (h2c : collectToolCalls r2.content ≠ [])
    (h3 : ¬ r3.stopReason = "tool_use")
    (ho1 : (orders 0).Perm (completedIdx (collectToolCalls r1.content) (execs 0)))
    (ho2 : (orders 1).Perm (completedIdx (collectToolCalls r2.content) (execs 1))) :
    ∃ log : List LogEntry,
      converse [Except.ok r1, Except.ok r2, Except.ok r3] execs orders
        = some (extractText r3.content, log, 2) := by
  rw [converse]
  rw [converseLoop_step execs orders r1 r2 [Except.ok r3] 0 [] 0 h1 h1c
    (runBatch_snd_ne_nil _ _ _ _ ho1 h1c)]
  rw [converseLoop_step execs orders r2 r3 [] 1 _ 1 h2 h2c
    (runBatch_snd_ne_nil _ _ _ _ ho2 h2c)]
  rw [converseLoop_done execs orders r3 [] 2 _ 2 (Or.inl h3)]
  exact ⟨_, rfl⟩

def c4Call1 : TCall := ⟨"get_live_oi_data", Json.null, "c1"⟩

def c4Call2 : TCall := ⟨"get_market_data", Json.null, "c2"⟩

def c4R1 : ModelResponse :=
  ⟨"tool_use", [ContentBlock.text "using tools", ContentBlock.toolUse c4Call1]⟩

def c4R2 : ModelResponse := ⟨"tool_use", [ContentBlock.toolUse c4Call2]⟩

def c4R3 : ModelResponse := ⟨"end_turn", [ContentBlock.text "final answer"]⟩

def c4Execs : Nat → Nat → ExecOut := fun _ _ => ExecOut.retStr "data"

def c4Orders : Nat → List Nat := fun _ => [0]

/-- Witness for C4: a concrete three-response script, one tool call per
tool turn. -/
theorem converse_scripted_two_cycles_witness :
    c4R1.stopReason = "tool_use"
    ∧ collectToolCalls c4R1.content ≠ []
    ∧ (∃ log : List LogEntry,
        converse [Except.ok c4R1, Except.ok c4R2, Except.ok c4R3] c4Execs c4Orders
          = some (extractText c4R3.content, log, 2)) :=
  ⟨rfl, by simp [collectToolCalls, c4R1],
    converse_scripted_two_cycles c4R1 c4R2 c4R3 c4Execs c4Orders rfl
      (by simp [collectToolCalls, c4R1]) rfl (by simp [collectToolCalls, c4R2])
      (by decide) (by decide) (by decide)⟩

/-! ## Session store and process_query (lines 42–131, 601–616) -/

/-- One completed user/assistant exchange appended to conversation_history
(lines 120–126).  The wall-clock fields (timestamp, total_time) are outside
the model. -/
structure Turn where
  userMessage : String
  assistantMessage : String
  toolCalls : List LogEntry

/-- A session context as built by create_session (lines 47–53). -/
structure Context where
  sessionId : String
  ticker : String
  createdAt : String
  currentAnalysis : Json
  conversationHistory : List Turn

/-- Service state: the in-process cache `active_sessions` and the durable
Redis tier.  Redis holds json.dumps(context) under key session:<id>; the
dumps/loads round trip is modelled as the identity on `Context`, so the
durable tier maps the id to the stored context value.  The TTL argument of
setex is wall-clock and not modelled (no claim in scope observes expiry). -/
structure ServiceState where
  activeSessions : List (String × Context)
  redisStore : List (String × Context)

/-- Key lookup in either tier. -/
def storeGet (store : List (String × Context)) (k : String) : Option Context :=
  (store.find? (fun p => p.1 == k)).map Prod.snd

/-- Key assignment in either tier (dict assignment / setex). -/
def storeSet (store : List (String × Context)) (k : String) (v : Context) :
    List (String × Context) :=
  (k, v) :: store.filter (fun p => !(p.1 == k))

theorem storeGet_storeSet_self (store : List (String × Context)) (k : String)
    (v : Context) : storeGet (storeSet store k v) k = some v := by
  have hfind : List.find? (fun p => p.1 == k)
      ((k, v) :: List.filter (fun p => !(p.1 == k)) store) = some (k, v) :=
    List.find?_cons_of_pos _ (beq_self_eq_true k)
  rw [storeGet, storeSet, hfind]
  rfl

/-- Python str.lower() on the ASCII data handled here (ticker symbols). -/
def pyLower (s : String) : String :=
  String.mk (s.data.map Char.toLower)

/-- Python str.upper() on the ASCII data handled here (ticker symbols). -/
def pyUpper (s : String) : String :=
  String.mk (s.data.map Char.toUpper)

/-- The session id generated at creation (line 44): the deterministic string
"oi_" ++ ticker.lower() ++ "_" ++ str(int(time.time())). -/
def createSessionId (ticker : String) (now : Nat) : String :=
  "oi_" ++ pyLower ticker ++ "_" ++ toString now

/-- create_session (lines 42–65): builds the context (ticker uppercased,
empty history, the given analysis as seed context), caches it in
active_sessions, and writes it through to Redis.  `now` is int(time.time()),
`nowIso` is datetime.now().isoformat(). -/
def createSession (st : ServiceState) (ticker : String) (currentAnalysis : Json)
    (now : Nat) (nowIso : String) : String × ServiceState :=
  let sid := createSessionId ticker now
  let ctx : Context := ⟨sid, pyUpper ticker, nowIso, currentAnalysis, []⟩
  (sid, ⟨storeSet st.activeSessions sid ctx, storeSet st.redisStore sid ctx⟩)

/-- get_session (lines 67–79): the in-process cache first; on a miss, the
durable tier, re-populating the cache on a hit; none when both tiers miss.
Returns the possibly-updated state alongside. -/
def getSession (st : ServiceState) (sid : String) : Option Context × ServiceState :=
  match storeGet st.activeSessions sid with
  | some ctx => (some ctx, st)
  | none =>
    match storeGet st.redisStore sid with
    | some ctx => (some ctx, { st with activeSessions := storeSet st.activeSessions sid ctx })
    | none => (none, st)

/-- _update_session (lines 601–608): write-through to both tiers. -/
def updateSession (st : ServiceState) (sid : String) (ctx : Context) : ServiceState :=
  ⟨storeSet st.activeSessions sid ctx, storeSet st.redisStore sid ctx⟩

/-- process_query (lines 81–131).  A missing session returns the sentinel
("Session not found", []).  Otherwise converse runs; converse's own
try/except means a Model Endpoint Client exception never propagates here —
the except branch of process_query (lines 115–117) is unreachable for model
failures — so the conversation turn is appended and persisted
unconditionally with whatever text converse returned.  The outbound message
construction (lines 100–101) influences no observable of the claims and is
elided; the scripted client stands in for the model.  none only when the
script is exhausted (an artifact of scripting the client). -/
def processQuery (st : ServiceState) (sid userQuery : String) (script : ModelScript)
    (execs : Nat → Nat → ExecOut) (orders : Nat → List Nat) :
    Option ((String × List LogEntry) × ServiceState) :=
  match getSession st sid with
  | (none, st1) => some (("Session not found", []), st1)
  | (some ctx, st1) =>
    match converse script execs orders with
    | none => none
    | some (text, log, _) =>
      some ((text, log), updateSession st1 sid
        { ctx with conversationHistory :=
            ctx.conversationHistory ++ [⟨userQuery, text, log⟩] })

/-! ## Claim C1: model failure and conversation history -/

def c1Ctx : Context := ⟨"s", "AAPL", "t0", Json.null, []⟩

def c1State : ServiceState := ⟨[("s", c1Ctx)], [("s", c1Ctx)]⟩

def noExec : Nat → Nat → ExecOut := fun _ _ => ExecOut.retStr ""

def noOrders : Nat → List Nat := fun _ => []

/-- C1 counterexample: on a session with empty history, a raising Model
Endpoint Client call makes process_query return converse's error text
without raising — but the failed attempt IS recorded: the session's
history afterwards has one entry, not zero.  (converse catches the
exception at line 327 and returns normally, so process_query's own except
branch never fires and the append at line 120 runs.) -/
theorem model_failure_appends_history_cex :
    (processQuery c1State "s" "q" [Except.error "boom"] noExec noOrders).map
        (fun r => (r.1, (storeGet r.2.activeSessions "s").map
          (fun c => c.conversationHistory.length)))
      = some (((converseErrText "boom", []), some 1)) := rfl

/-- C1 (amended): for every session resolved by the Session Store and a
Model Endpoint Client whose call raises, process_query returns converse's
apologetic error text with an empty tool list and does not raise — but it
appends exactly one turn recording the failed attempt: the session's
history afterwards has old length + 1 entries, the new turn carrying the
error text as its assistant message. -/
theorem process_query_model_failure_amended (st : ServiceState) (sid q msg : String)
    (rest : ModelScript) (execs : Nat → Nat → ExecOut) (orders : Nat → List Nat)
    (ctx : Context) (st1 : ServiceState)
    (h : getSession st sid = (some ctx, st1)) :
    processQuery st sid q (Except.error msg :: rest) execs orders
      = some ((converseErrText msg, []),
          updateSession st1 sid
            { ctx with conversationHistory :=
                ctx.conversationHistory ++ [⟨q, converseErrText msg, []⟩] })
    ∧ (storeGet (updateSession st1 sid
          { ctx with conversationHistory :=
              ctx.conversationHistory ++ [⟨q, converseErrText msg, []⟩] }).activeSessions
        sid).map (fun c => c.conversationHistory.length)
      = some (ctx.conversationHistory.length + 1) := by
  constructor
  · rw [processQuery, h]
    rfl
  · simp [updateSession, storeGet_storeSet_self]

/-- Witness for the amended C1 at a concrete session and failure. -/
theorem process_query_model_failure_amended_witness :
    getSession c1State "s" = (some c1Ctx, c1State)
    ∧ processQuery c1State "s" "q" [Except.error "boom"] noExec noOrders
      = some ((converseErrText "boom", []),
          updateSession c1State "s"
            { c1Ctx with conversationHistory :=
                c1Ctx.conversationHistory ++ [⟨"q", converseErrText "boom", []⟩] }) :=
  ⟨rfl,
    (process_query_model_failure_amended c1State "s" "q" "boom" [] noExec noOrders
      c1Ctx c1State rfl).1⟩

/-! ## Claim C6: unknown session id -/

def c6Ctx : Context := ⟨"sid6", "TSLA", "t0", Json.null, []⟩

def c6State : ServiceState := ⟨[("sid6", c6Ctx)], []⟩

def c6Resp : ModelResponse := ⟨"end_turn", [ContentBlock.text "Session not found"]⟩

/-- C6 counterexample: a session id missing from both tiers yields the bare
tuple ("Session not found", []) — which is bit-for-bit identical to the
value process_query returns for a FOUND session whose model happens to
answer with that same plain text and no tools.  The miss is not surfaced as
a structured error distinct from a successful response. -/
theorem session_not_found_shape_cex :
    (processQuery ⟨[], []⟩ "sid6" "q" [] noExec noOrders).map (fun r => r.1)
      = some ("Session not found", [])
    ∧ (processQuery c6State "sid6" "q" [Except.ok c6Resp] noExec noOrders).map
        (fun r => r.1)
      = some ("Session not found", []) := ⟨rfl, rfl⟩

/-- C6 (amended): for every session_id that resolves via neither the
in-process cache nor the durable tier, process_query returns the sentinel
text "Session not found" with an empty tool-call list, immediately and
without retry, raising nothing and leaving the state unchanged; the return
has the same shape as a successful response and is distinguishable only by
its text. -/
theorem session_not_found_sentinel (st : ServiceState) (sid q : String)
    (script : ModelScript) (execs : Nat → Nat → ExecOut) (orders : Nat → List Nat)
    (h1 : storeGet st.activeSessions sid = none)
    (h2 : storeGet st.redisStore sid = none) :
    processQuery st sid q script execs orders = some (("Session not found", []), st) := by
  rw [processQuery, getSession, h1, h2]

/-- Witness for the amended C6 on the empty state. -/
theorem session_not_found_sentinel_witness :
    storeGet (ServiceState.mk [] []).activeSessions "ghost" = none
    ∧ processQuery ⟨[], []⟩ "ghost" "q" [] noExec noOrders
      = some (("Session not found", []), (⟨[], []⟩ : ServiceState)) :=
  ⟨rfl, session_not_found_sentinel ⟨[], []⟩ "ghost" "q" [] noExec noOrders rfl rfl⟩

/-- On an in-process cache miss, what load returns is exactly what the
durable tier holds. -/
theorem getSession_fst_of_cache_miss (st : ServiceState) (sid : String)
    (h1 : storeGet st.activeSessions sid = none) :
    (getSession st sid).1 = storeGet st.redisStore sid := by
  simp only [getSession, h1]
  cases h2 : storeGet st.redisStore sid
  · rfl
  · rfl

/-! ## Claim C7: create/load round trip -/

def c7Seed : Json := Json.obj [("pattern", Json.str "X")]

def c7Created : String × ServiceState :=
  createSession ⟨[], []⟩ "aapl" c7Seed 1700000000 "t0"

/-- C7 counterexample: creating a session for the subject "aapl" and loading
it back (through the durable tier) yields a session whose subject is
"AAPL" — create_session stores ticker.upper(), so the loaded subject does
not equal the subject given at creation. -/
theorem create_load_subject_case_cex :
    ((getSession ⟨[], c7Created.2.redisStore⟩ c7Created.1).1).map Context.ticker
      = some "AAPL"
    ∧ ("AAPL" : String) ≠ "aapl" := ⟨rfl, by decide⟩

/-- C7 (amended): for every subject string and seed context, create followed
by load of the returned id — from a fresh cache, so the load passes through
the durable tier's serialize/deserialize cycle — yields a session whose
subject is the UPPERCASED creation subject (hence equal to it exactly when
the subject was already uppercase) and whose seed context is structurally
intact. -/
theorem create_load_round_trip_amended (st : ServiceState) (ticker : String)
    (seed : Json) (now : Nat) (iso : String) :
    ((getSession ⟨[], (createSession st ticker seed now iso).2.redisStore⟩
        (createSession st ticker seed now iso).1).1).map Context.ticker
      = some (pyUpper ticker)
    ∧ ((getSession ⟨[], (createSession st ticker seed now iso).2.redisStore⟩
        (createSession st ticker seed now iso).1).1).map Context.currentAnalysis
      = some seed := by
  have h1 : (createSession st ticker seed now iso).1 = createSessionId ticker now := rfl
  have h2 : (createSession st ticker seed now iso).2.redisStore
      = storeSet st.redisStore (createSessionId ticker now)
          ⟨createSessionId ticker now, pyUpper ticker, iso, seed, []⟩ := rfl
  rw [h1, h2, getSession_fst_of_cache_miss
    ⟨[], storeSet st.redisStore (createSessionId ticker now)
        ⟨createSessionId ticker now, pyUpper ticker, iso, seed, []⟩⟩
    (createSessionId ticker now) rfl]
  simp [storeGet_storeSet_self]

/-! ## Claim C9: session id uniqueness and unguessability -/

/-- C9 counterexample: two create calls with the same subject in the same
clock second — on entirely different service states and with different
creation timestamps recorded — return the SAME session id, and that id is
the fully predictable string "oi_aapl_1700000000": a deterministic function
of the subject and the wall-clock second. -/
theorem session_id_collision_cex :
    (createSession ⟨[], []⟩ "AAPL" Json.null 1700000000 "t0").1
      = (createSession ⟨[("x", c6Ctx)], []⟩ "AAPL" (Json.str "other") 1700000000 "t1").1
    ∧ (createSession ⟨[], []⟩ "AAPL" Json.null 1700000000 "t0").1
      = "oi_aapl_1700000000" := ⟨rfl, rfl⟩

/-- C9 (amended): the session id returned by create is the deterministic
string "oi_" ++ subject.lower() ++ "_" ++ epoch-seconds — a function of
publicly known inputs only.  Two create calls whose subjects agree up to
case and which fall in the same clock second return identical ids, whatever
their seed contexts or service states; ids are neither unguessable nor
unique within a second. -/
theorem session_id_deterministic_amended (st st2 : ServiceState) (t t2 : String)
    (a a2 : Json) (n : Nat) (iso iso2 : String) (h : pyLower t = pyLower t2) :
    (createSession st t a n iso).1 = (createSession st2 t2 a2 n iso2).1
    ∧ (createSession st t a n iso).1 = "oi_" ++ pyLower t ++ "_" ++ toString n := by
  constructor
  · show createSessionId t n = createSessionId t2 n
    rw [createSessionId, createSessionId, h]
  · rfl

/-- Witness for the amended C9: "Spy" and "sPY" in the same second. -/
theorem session_id_deterministic_amended_witness :
    pyLower "Spy" = pyLower "sPY"
    ∧ (createSession ⟨[], []⟩ "Spy" Json.null 99 "a").1
      = (createSession ⟨[], []⟩ "sPY" Json.null 99 "b").1 :=
  ⟨by decide,
    (session_id_deterministic_amended ⟨[], []⟩ ⟨[], []⟩ "Spy" "sPY" Json.null Json.null
      99 "a" "b" (by decide)).1⟩

end OITracker
